import Mathlib

/-!
Shallow embedding of the Microfinance loan-ledger contract
(Solidity source: contract Microfinance — request/fund/reject/repay loans
with platform fees for lender and borrower).

Addresses are modelled as natural numbers, with 0 playing the role of
address(0). Amounts (wei) and timestamps are natural numbers; Solidity 0.8
arithmetic reverts on underflow, which is modelled by an explicit check at
the one subtraction whose operands are not already ordered by a guard.
EVM revert semantics (a failed call leaves storage untouched) is modelled
by operations returning Except: an error result carries no new state, and
the runner keeps the old state on error.
-/

abbrev Addr := Nat

inductive LoanStatus
  | Pending
  | Approved
  | Repaid
  | Rejected
deriving DecidableEq, Repr

/-- struct Loan from the contract. -/
structure Loan where
  borrower : Addr
  amount : Nat
  duration : Nat
  purpose : String
  status : LoanStatus
  dueDate : Nat
  lender : Addr
deriving DecidableEq, Repr

/-- Contract storage: loans array, per-user loan index, credit scores,
fee configuration, treasury, owner and pause flag. -/
structure MState where
  loans : List Loan
  userLoans : Addr → List Nat
  creditScores : Addr → Nat
  lenderFeeBps : Nat
  borrowerFeeBps : Nat
  treasury : Addr
  owner : Addr
  paused : Bool

/-- Revert reasons of the contract (require messages and modifier reverts). -/
inductive Err
  | errPaused
  | errNotPaused
  | notOwner
  | invalidId
  | notPending
  | invalidAmount
  | invalidDuration
  | emptyPurpose
  | incorrectValue
  | notBorrower
  | notApproved
  | insufficientRepay
  | noLender
  | feeTooHigh
  | treasuryRequired
  | underflow
deriving DecidableEq, Repr

/-- event LoanFunded(loanId, borrower, lender, amount, lenderFee, borrowerFee). -/
structure FundEvent where
  loanId : Nat
  borrower : Addr
  lender : Addr
  amount : Nat
  lenderFee : Nat
  borrowerFee : Nat
deriving DecidableEq, Repr

/-- event LoanRepaid(loanId, borrower, lender, amount). -/
structure RepayEvent where
  loanId : Nat
  borrower : Addr
  lender : Addr
  amount : Nat
deriving DecidableEq, Repr

/-- event LoanRejected(loanId, borrower). -/
structure RejectEvent where
  loanId : Nat
  borrower : Addr
deriving DecidableEq, Repr

/-- The fee computation performed inline in fundLoan:
floor(amount * bps / 10000) for each of the two configured rates. -/
def computeFees (amount lenderBps borrowerBps : Nat) : Nat × Nat :=
  (amount * lenderBps / 10000, amount * borrowerBps / 10000)

/-- 1 days in seconds, as in Solidity's duration * 1 days. -/
def secondsPerDay : Nat := 86400

/-- function requestLoan(_amount, _duration, _purpose): creates a Pending
loan with dueDate = now + duration * 1 days and lender = address(0),
appends its id to the caller's userLoans, and returns the id. -/
def requestLoan (caller : Addr) (now amount duration : Nat) (purpose : String)
    (s : MState) : Except Err (Nat × MState) :=
  if s.paused then .error .errPaused else
  if amount = 0 then .error .invalidAmount else
  if duration = 0 then .error .invalidDuration else
  if purpose = "" then .error .emptyPurpose else
  let loanId := s.loans.length
  let L : Loan :=
    { borrower := caller, amount := amount, duration := duration,
      purpose := purpose, status := .Pending,
      dueDate := now + duration * secondsPerDay, lender := 0 }
  .ok (loanId,
    { s with
      loans := s.loans ++ [L],
      userLoans := fun a =>
        if a = caller then s.userLoans a ++ [loanId] else s.userLoans a })

/-- function fundLoan(_loanId) payable: requires a Pending loan and
msg.value = amount + lenderFee; pays lenderFee to treasury,
amount - borrowerFee to the borrower, borrowerFee to treasury; sets
status = Approved, lender = msg.sender, dueDate = now + duration * 1 days.
Returns the new state, the list of outgoing transfer legs in order, and
the LoanFunded event. -/
def fundLoan (caller : Addr) (now msgValue loanId : Nat) (s : MState) :
    Except Err (MState × List (Addr × Nat) × FundEvent) :=
  if s.paused then .error .errPaused else
  match s.loans[loanId]? with
  | none => .error .invalidId
  | some L =>
    if L.status ≠ .Pending then .error .notPending else
    if L.amount = 0 then .error .invalidAmount else
    let lenderFee := (computeFees L.amount s.lenderFeeBps s.borrowerFeeBps).1
    let borrowerFee := (computeFees L.amount s.lenderFeeBps s.borrowerFeeBps).2
    let required := L.amount + lenderFee
    if msgValue ≠ required then .error .incorrectValue else
    if L.amount < borrowerFee then .error .underflow else
    let toBorrower := L.amount - borrowerFee
    let L2 : Loan :=
      { L with status := .Approved, lender := caller,
               dueDate := now + L.duration * secondsPerDay }
    .ok ({ s with loans := s.loans.set loanId L2 },
         [(s.treasury, lenderFee), (L.borrower, toBorrower),
          (s.treasury, borrowerFee)],
         { loanId := loanId, borrower := L.borrower, lender := caller,
           amount := L.amount, lenderFee := lenderFee,
           borrowerFee := borrowerFee })

/-- function rejectLoan(_loanId): intentionally NOT onlyOwner; any caller
may reject a Pending loan, setting status = Rejected. -/
def rejectLoan (caller : Addr) (loanId : Nat) (s : MState) :
    Except Err (MState × RejectEvent) :=
  if s.paused then .error .errPaused else
  match s.loans[loanId]? with
  | none => .error .invalidId
  | some L =>
    if L.status ≠ .Pending then .error .notPending else
    .ok ({ s with loans := s.loans.set loanId { L with status := .Rejected } },
         { loanId := loanId, borrower := L.borrower })

/-- function repayLoan(_loanId) payable: borrower repays an Approved loan
with msg.value >= amount; status becomes Repaid, the borrower's credit
score rises by 10, the principal goes to the lender and any excess is
refunded to the caller. Returns the new state, the outgoing transfer legs
in order and the LoanRepaid event. -/
def repayLoan (caller : Addr) (msgValue loanId : Nat) (s : MState) :
    Except Err (MState × List (Addr × Nat) × RepayEvent) :=
  if s.paused then .error .errPaused else
  match s.loans[loanId]? with
  | none => .error .invalidId
  | some L =>
    if L.borrower ≠ caller then .error .notBorrower else
    if L.status ≠ .Approved then .error .notApproved else
    if msgValue < L.amount then .error .insufficientRepay else
    if L.lender = 0 then .error .noLender else
    let extra := msgValue - L.amount
    .ok ({ s with
           loans := s.loans.set loanId { L with status := .Repaid },
           creditScores := fun a =>
             if a = caller then s.creditScores a + 10 else s.creditScores a },
         (L.lender, L.amount) ::
           (if 0 < extra then [(caller, extra)] else []),
         { loanId := loanId, borrower := L.borrower, lender := L.lender,
           amount := L.amount })

/-- Deprecated function approveLoan(_loanId), onlyOwner: marks a Pending
loan Approved and refreshes dueDate without moving value and without
setting the lender. -/
def approveLoan (caller : Addr) (now loanId : Nat) (s : MState) :
    Except Err MState :=
  if caller ≠ s.owner then .error .notOwner else
  if s.paused then .error .errPaused else
  match s.loans[loanId]? with
  | none => .error .invalidId
  | some L =>
    if L.status ≠ .Pending then .error .notPending else
    let L2 : Loan :=
      { L with status := .Approved,
               dueDate := now + L.duration * secondsPerDay }
    .ok { s with loans := s.loans.set loanId L2 }

/-- function setFees, onlyOwner: caps each rate at 1000 bps. -/
def setFees (caller : Addr) (l b : Nat) (s : MState) : Except Err MState :=
  if caller ≠ s.owner then .error .notOwner else
  if 1000 < l ∨ 1000 < b then .error .feeTooHigh else
  .ok { s with lenderFeeBps := l, borrowerFeeBps := b }

/-- function setTreasury, onlyOwner: rejects address(0). -/
def setTreasury (caller : Addr) (t : Addr) (s : MState) : Except Err MState :=
  if caller ≠ s.owner then .error .notOwner else
  if t = 0 then .error .treasuryRequired else
  .ok { s with treasury := t }

/-- function pause, onlyOwner (Pausable._pause reverts when already paused). -/
def pause (caller : Addr) (s : MState) : Except Err MState :=
  if caller ≠ s.owner then .error .notOwner else
  if s.paused then .error .errPaused else
  .ok { s with paused := true }

/-- function unpause, onlyOwner (Pausable._unpause reverts when not paused). -/
def unpause (caller : Addr) (s : MState) : Except Err MState :=
  if caller ≠ s.owner then .error .notOwner else
  if s.paused then .ok { s with paused := false } else .error .errNotPaused

/-- One external call to the contract, with its caller, block timestamp
where the body reads it, and msg.value where payable. -/
inductive Op
  | requestLoan (caller : Addr) (now amount duration : Nat) (purpose : String)
  | fundLoan (caller : Addr) (now msgValue loanId : Nat)
  | rejectLoan (caller : Addr) (loanId : Nat)
  | repayLoan (caller : Addr) (msgValue loanId : Nat)
  | approveLoan (caller : Addr) (now loanId : Nat)
  | setFees (caller : Addr) (l b : Nat)
  | setTreasury (caller : Addr) (t : Addr)
  | pause (caller : Addr)
  | unpause (caller : Addr)

/-- The state transition of one external call, forgetting return data,
transfers and events. -/
def step : Op → MState → Except Err MState
  | .requestLoan c now a d p, s => (requestLoan c now a d p s).map (·.2)
  | .fundLoan c now v i, s => (fundLoan c now v i s).map (·.1)
  | .rejectLoan c i, s => (rejectLoan c i s).map (·.1)
  | .repayLoan c v i, s => (repayLoan c v i s).map (·.1)
  | .approveLoan c now i, s => approveLoan c now i s
  | .setFees c l b, s => setFees c l b s
  | .setTreasury c t, s => setTreasury c t s
  | .pause c, s => pause c s
  | .unpause c, s => unpause c s

/-- EVM revert semantics: a failed call leaves the state unchanged. -/
def exec (op : Op) (s : MState) : MState :=
  match step op s with
  | .ok s2 => s2
  | .error _ => s

/-- Run a sequence of external calls. -/
def run (ops : List Op) (s : MState) : MState :=
  ops.foldl (fun t op => exec op t) s

/-- Constructor state: empty ledger, default fees 100 / 50 bps,
given owner (deployer) and treasury. -/
def initState (owner treasury : Addr) : MState :=
  { loans := [], userLoans := fun _ => [], creditScores := fun _ => 0,
    lenderFeeBps := 100, borrowerFeeBps := 50,
    treasury := treasury, owner := owner, paused := false }

/-- The loan record as fundLoan rewrites it. -/
def fundedLoan (caller now : Nat) (L : Loan) : Loan :=
  { L with status := .Approved, lender := caller,
           dueDate := now + L.duration * secondsPerDay }

/-- The Pending loan record as requestLoan creates it. -/
def requestedLoan (caller : Addr) (now amount duration : Nat)
    (purpose : String) : Loan :=
  { borrower := caller, amount := amount, duration := duration,
    purpose := purpose, status := .Pending,
    dueDate := now + duration * secondsPerDay, lender := 0 }

/-- The loan record as rejectLoan rewrites it. -/
def rejectedLoan (L : Loan) : Loan := { L with status := .Rejected }

/-- The loan record as repayLoan rewrites it. -/
def repaidLoan (L : Loan) : Loan := { L with status := .Repaid }

/-- The loan record as the deprecated approveLoan rewrites it. -/
def approvedLoan (now : Nat) (L : Loan) : Loan :=
  { L with status := .Approved, dueDate := now + L.duration * secondsPerDay }

/-- The credit-score map after the +10 bump of repayLoan. -/
def bumpScore (s : MState) (caller : Addr) : Addr → Nat :=
  fun a => if a = caller then s.creditScores a + 10 else s.creditScores a

/-- The per-user loan index after requestLoan appends the new id. -/
def pushUser (s : MState) (caller : Addr) : Addr → List Nat :=
  fun a => if a = caller then s.userLoans a ++ [s.loans.length]
           else s.userLoans a

/-- Scenario state: fresh deployment by owner 1 with treasury 9. -/
def sA : MState := initState 1 9

/-- Scenario state: after requestLoan(alice = 2, 1000, 30, "seed") at time 0. -/
def sB : MState := exec (.requestLoan 2 0 1000 30 "seed") sA

/-- The loan created in scenario state sB. -/
def loanB : Loan :=
  { borrower := 2, amount := 1000, duration := 30, purpose := "seed",
    status := .Pending, dueDate := 2592000, lender := 0 }

/-- Result of fundLoan(bob = 3, loan 0, value 1010) at time 5 on sB. -/
def outB : MState × List (Addr × Nat) × FundEvent :=
  ({ sB with loans := sB.loans.set 0 (fundedLoan 3 5 loanB) },
   [(9, 10), (2, 995), (9, 5)],
   { loanId := 0, borrower := 2, lender := 3, amount := 1000,
     lenderFee := 10, borrowerFee := 5 })



/-- Scenario state: sB after fundLoan(bob = 3, loan 0, value 1010) at time 5. -/
def sB2 : MState := exec (.fundLoan 3 5 1010 0) sB

/-- Scenario state: sB after rejectLoan(caller 4, loan 0). -/
def sE : MState := exec (.rejectLoan 4 0) sB

/-- The rejected loan record in sE. -/
def loanRejB : Loan := rejectedLoan loanB

/-- The funded loan record in sB2. -/
def loanB2 : Loan := fundedLoan 3 5 loanB

/-- Result of repayLoan(alice = 2, value 1005, loan 0) on sB2. -/
def outD : MState × List (Addr × Nat) × RepayEvent :=
  ({ sB2 with loans := sB2.loans.set 0 (repaidLoan loanB2),
              creditScores := bumpScore sB2 2 },
   [(3, 1000), (2, 5)],
   { loanId := 0, borrower := 2, lender := 3, amount := 1000 })

/-- Arguments of one requestLoan call. -/
structure Req where
  caller : Addr
  now : Nat
  amount : Nat
  duration : Nat
  purpose : String

/-- Run a sequence of requestLoan calls, none of which may fail, and
collect the returned loanIds. -/
def runRequests : List Req → MState → Option (List Nat × MState)
  | [], s => some ([], s)
  | r :: rest, s =>
    match requestLoan r.caller r.now r.amount r.duration r.purpose s with
    | .error _ => none
    | .ok z =>
      match runRequests rest z.2 with
      | none => none
      | some w => some (z.1 :: w.1, w.2)

/-- A concrete sequence of three requestLoan calls. -/
def reqsW : List Req :=
  [{ caller := 2, now := 0, amount := 1000, duration := 30, purpose := "seed" },
   { caller := 4, now := 1, amount := 500, duration := 7, purpose := "gear" },
   { caller := 2, now := 2, amount := 50, duration := 3, purpose := "tea" }]

/-- The state after running reqsW from a fresh deployment. -/
def sW : MState :=
  ((runRequests reqsW (initState 1 9)).map (fun z => z.2)).getD (initState 1 9)

/-- The only call shape that may change account a's credit score:
a repayLoan whose caller is a. -/
def scoreTouching (op : Op) (a : Addr) : Prop :=
  match op with
  | .repayLoan c _ _ => c = a
  | _ => False

/-- A concrete full lifecycle: request, fund, repay. -/
def opsW : List Op :=
  [.requestLoan 2 0 1000 30 "seed", .fundLoan 3 5 1010 0,
   .repayLoan 2 1005 0]

/-- The block timestamp an operation reads, when its body reads one. -/
def opNow : Op → Option Nat
  | .requestLoan _ now _ _ _ => some now
  | .fundLoan _ now _ _ => some now
  | .approveLoan _ now _ => some now
  | _ => none

/-- The timestamps along a trace are bounded below by T and
non-decreasing. -/
def timesLB (T : Nat) : List Op → Prop
  | [] => True
  | op :: rest =>
    match opNow op with
    | none => timesLB T rest
    | some n => T ≤ n ∧ timesLB n rest

/-- The last timestamp lower bound after a trace. -/
def lastLB (T : Nat) : List Op → Nat
  | [] => T
  | op :: rest => lastLB ((opNow op).getD T) rest

/-- Every loan in the list has a positive duration and a positive dueDate
bounded by T + duration in seconds, where T bounds the timestamps seen so
far. -/
def dueDates_ok (T : Nat) (ls : List Loan) : Prop :=
  ∀ (i : Nat) (L : Loan), ls[i]? = some L →
    0 < L.duration ∧ 0 < L.dueDate ∧
    L.dueDate ≤ T + L.duration * secondsPerDay

/-- The loan of sB as the deprecated approveLoan leaves it at time 7. -/
def loanApp : Loan := approvedLoan 7 loanB

/-- Scenario state: sB after approveLoan(owner 1, time 7, loan 0). -/
def sApp : MState := exec (.approveLoan 1 7 0) sB

/-- Inversion of a successful fundLoan: recovers the guards and the shape
of the result. -/
theorem fundLoan_ok_inv {caller now msgValue loanId : Nat} {s : MState} {out}
    (h : fundLoan caller now msgValue loanId s = .ok out) :
    s.paused = false ∧
    ∃ L, s.loans[loanId]? = some L ∧ L.status = .Pending ∧ L.amount ≠ 0 ∧
      msgValue = L.amount + L.amount * s.lenderFeeBps / 10000 ∧
      L.amount * s.borrowerFeeBps / 10000 ≤ L.amount ∧
      out = ({ s with loans := s.loans.set loanId (fundedLoan caller now L) },
             [(s.treasury, L.amount * s.lenderFeeBps / 10000),
              (L.borrower, L.amount - L.amount * s.borrowerFeeBps / 10000),
              (s.treasury, L.amount * s.borrowerFeeBps / 10000)],
             { loanId := loanId, borrower := L.borrower, lender := caller,
               amount := L.amount,
               lenderFee := L.amount * s.lenderFeeBps / 10000,
               borrowerFee := L.amount * s.borrowerFeeBps / 10000 }) := by
  unfold fundLoan at h
  split at h
  · exact absurd h (by simp)
  · constructor
    · simp_all
    · split at h
      · exact absurd h (by simp)
      · rename_i L hL
        refine ⟨L, hL, ?_⟩
        simp only [computeFees] at h
        split at h
        · exact absurd h (by simp)
        · split at h
          · exact absurd h (by simp)
          · split at h
            · exact absurd h (by simp)
            · split at h
              · exact absurd h (by simp)
              · rename_i h1 h2 h3 h4
                cases h
                refine ⟨by simpa using h1, by simpa using h2, by omega, by omega, rfl⟩

/-- C1: for every successful fundLoan call on a loan with principal P,
the value sent equals P + floor(P * lenderFeeBps / 10000); the outgoing
legs are lenderFee to treasury, P - floor(P * borrowerFeeBps / 10000) to
the borrower and borrowerFee to treasury; and the outgoing amounts sum
exactly to the value sent. -/
theorem fundLoan_value_conservation (caller now v loanId : Nat) (s : MState)
    (L : Loan) (out : MState × List (Addr × Nat) × FundEvent)
    (hL : s.loans[loanId]? = some L)
    (h : fundLoan caller now v loanId s = .ok out) :
    v = L.amount + L.amount * s.lenderFeeBps / 10000 ∧
    out.2.1 = [(s.treasury, L.amount * s.lenderFeeBps / 10000),
               (L.borrower, L.amount - L.amount * s.borrowerFeeBps / 10000),
               (s.treasury, L.amount * s.borrowerFeeBps / 10000)] ∧
    (out.2.1.map (fun t => t.2)).sum = v := by
  obtain ⟨-, L', hL', -, -, hv, hbf, hout⟩ := fundLoan_ok_inv h
  rw [hL] at hL'
  cases hL'
  subst hout
  refine ⟨hv, rfl, ?_⟩
  simp only [List.map_cons, List.map_nil, List.sum_cons, List.sum_nil]
  omega

/-- Witness for C1 at Scenario B. -/
theorem fundLoan_value_conservation_witness :
    1010 = loanB.amount + loanB.amount * sB.lenderFeeBps / 10000 ∧
    outB.2.1 = [(sB.treasury, loanB.amount * sB.lenderFeeBps / 10000),
                (loanB.borrower,
                 loanB.amount - loanB.amount * sB.borrowerFeeBps / 10000),
                (sB.treasury, loanB.amount * sB.borrowerFeeBps / 10000)] ∧
    (outB.2.1.map (fun t => t.2)).sum = 1010 :=
  fundLoan_value_conservation 3 5 1010 0 sB loanB outB (by rfl) (by rfl)

/-- Inversion of a successful requestLoan. -/
theorem requestLoan_ok_inv {c : Addr} {now a d : Nat} {p : String} {s : MState}
    {out} (h : requestLoan c now a d p s = .ok out) :
    s.paused = false ∧ a ≠ 0 ∧ d ≠ 0 ∧ p ≠ "" ∧
    out = (s.loans.length,
           { s with loans := s.loans ++ [requestedLoan c now a d p],
                    userLoans := pushUser s c }) := by
  unfold requestLoan at h
  split at h
  · exact absurd h (by simp)
  · split at h
    · exact absurd h (by simp)
    · split at h
      · exact absurd h (by simp)
      · split at h
        · exact absurd h (by simp)
        · cases h
          rename_i h1 h2 h3 h4
          exact ⟨by simpa using h1, h2, h3, h4, rfl⟩

/-- Inversion of a successful rejectLoan. -/
theorem rejectLoan_ok_inv {c : Addr} {i : Nat} {s : MState} {out}
    (h : rejectLoan c i s = .ok out) :
    s.paused = false ∧
    ∃ L, s.loans[i]? = some L ∧ L.status = .Pending ∧
      out = ({ s with loans := s.loans.set i (rejectedLoan L) },
             { loanId := i, borrower := L.borrower }) := by
  unfold rejectLoan at h
  split at h
  · exact absurd h (by simp)
  · constructor
    · simp_all
    · split at h
      · exact absurd h (by simp)
      · rename_i L hL
        refine ⟨L, hL, ?_⟩
        split at h
        · exact absurd h (by simp)
        · rename_i h1
          cases h
          exact ⟨by simpa using h1, rfl⟩

/-- Inversion of a successful repayLoan. -/
theorem repayLoan_ok_inv {c : Addr} {v i : Nat} {s : MState} {out}
    (h : repayLoan c v i s = .ok out) :
    s.paused = false ∧
    ∃ L, s.loans[i]? = some L ∧ L.borrower = c ∧ L.status = .Approved ∧
      L.amount ≤ v ∧ L.lender ≠ 0 ∧
      out = ({ s with loans := s.loans.set i (repaidLoan L),
                      creditScores := bumpScore s c },
             (L.lender, L.amount) ::
               (if 0 < v - L.amount then [(c, v - L.amount)] else []),
             { loanId := i, borrower := L.borrower, lender := L.lender,
               amount := L.amount }) := by
  unfold repayLoan at h
  split at h
  · exact absurd h (by simp)
  · constructor
    · simp_all
    · split at h
      · exact absurd h (by simp)
      · rename_i L hL
        refine ⟨L, hL, ?_⟩
        split at h
        · exact absurd h (by simp)
        · split at h
          · exact absurd h (by simp)
          · split at h
            · exact absurd h (by simp)
            · split at h
              · exact absurd h (by simp)
              · rename_i h1 h2 h3 h4
                cases h
                exact ⟨by simpa using h1, by simpa using h2, by omega,
                       by simpa using h4, rfl⟩

/-- Inversion of a successful approveLoan. -/
theorem approveLoan_ok_inv {c : Addr} {now i : Nat} {s s2 : MState}
    (h : approveLoan c now i s = .ok s2) :
    c = s.owner ∧ s.paused = false ∧
    ∃ L, s.loans[i]? = some L ∧ L.status = .Pending ∧
      s2 = { s with loans := s.loans.set i (approvedLoan now L) } := by
  unfold approveLoan at h
  split at h
  · exact absurd h (by simp)
  · rename_i h0
    refine ⟨by simpa using h0, ?_⟩
    split at h
    · exact absurd h (by simp)
    · constructor
      · simp_all
      · split at h
        · exact absurd h (by simp)
        · rename_i L hL
          refine ⟨L, hL, ?_⟩
          split at h
          · exact absurd h (by simp)
          · rename_i h1
            cases h
            exact ⟨by simpa using h1, rfl⟩

/-- Inversion of a successful setFees. -/
theorem setFees_ok_inv {c : Addr} {l b : Nat} {s s2 : MState}
    (h : setFees c l b s = .ok s2) :
    c = s.owner ∧ l ≤ 1000 ∧ b ≤ 1000 ∧
    s2 = { s with lenderFeeBps := l, borrowerFeeBps := b } := by
  unfold setFees at h
  split at h
  · exact absurd h (by simp)
  · split at h
    · exact absurd h (by simp)
    · rename_i h1 h2
      cases h
      exact ⟨by simpa using h1, by omega, by omega, rfl⟩

/-- Inversion of a successful setTreasury. -/
theorem setTreasury_ok_inv {c t : Addr} {s s2 : MState}
    (h : setTreasury c t s = .ok s2) :
    c = s.owner ∧ t ≠ 0 ∧ s2 = { s with treasury := t } := by
  unfold setTreasury at h
  split at h
  · exact absurd h (by simp)
  · split at h
    · exact absurd h (by simp)
    · rename_i h1 h2
      cases h
      exact ⟨by simpa using h1, h2, rfl⟩

/-- Inversion of a successful pause. -/
theorem pause_ok_inv {c : Addr} {s s2 : MState} (h : pause c s = .ok s2) :
    c = s.owner ∧ s.paused = false ∧ s2 = { s with paused := true } := by
  unfold pause at h
  split at h
  · exact absurd h (by simp)
  · split at h
    · exact absurd h (by simp)
    · rename_i h1 h2
      cases h
      exact ⟨by simpa using h1, by simpa using h2, rfl⟩

/-- Inversion of a successful unpause. -/
theorem unpause_ok_inv {c : Addr} {s s2 : MState} (h : unpause c s = .ok s2) :
    c = s.owner ∧ s.paused = true ∧ s2 = { s with paused := false } := by
  unfold unpause at h
  split at h
  · exact absurd h (by simp)
  · split at h
    · rename_i h1 h2
      cases h
      exact ⟨by simpa using h1, h2, rfl⟩
    · exact absurd h (by simp)

/-- fundLoan cannot succeed on a loan that is not Pending. -/
theorem fundLoan_isOk_false_of_not_pending {c : Addr} {now v i : Nat}
    {s : MState} {L : Loan} (hL : s.loans[i]? = some L)
    (hst : L.status ≠ .Pending) : (fundLoan c now v i s).isOk = false := by
  unfold fundLoan
  split
  · rfl
  · simp only [hL]
    split_ifs <;> first | rfl | simp_all

/-- rejectLoan cannot succeed on a loan that is not Pending. -/
theorem rejectLoan_isOk_false_of_not_pending {c : Addr} {i : Nat}
    {s : MState} {L : Loan} (hL : s.loans[i]? = some L)
    (hst : L.status ≠ .Pending) : (rejectLoan c i s).isOk = false := by
  unfold rejectLoan
  split
  · rfl
  · simp only [hL]
    split_ifs <;> first | rfl | simp_all

/-- approveLoan cannot succeed on a loan that is not Pending. -/
theorem approveLoan_isOk_false_of_not_pending {c : Addr} {now i : Nat}
    {s : MState} {L : Loan} (hL : s.loans[i]? = some L)
    (hst : L.status ≠ .Pending) : (approveLoan c now i s).isOk = false := by
  unfold approveLoan
  split
  · rfl
  · split
    · rfl
    · simp only [hL]
      split_ifs <;> first | rfl | simp_all

/-- repayLoan cannot succeed on a loan that is not Approved. -/
theorem repayLoan_isOk_false_of_not_approved {c : Addr} {v i : Nat}
    {s : MState} {L : Loan} (hL : s.loans[i]? = some L)
    (hst : L.status ≠ .Approved) : (repayLoan c v i s).isOk = false := by
  unfold repayLoan
  split
  · rfl
  · simp only [hL]
    split_ifs <;> first | rfl | simp_all

/-- Any single successful call moves each existing loan's status along an
allowed edge or leaves it unchanged. -/
theorem step_status_move {op : Op} {s s2 : MState} (h : step op s = .ok s2)
    {i : Nat} {L L2 : Loan} (hL : s.loans[i]? = some L)
    (hL2 : s2.loans[i]? = some L2) :
    L2.status = L.status ∨
    (L.status = .Pending ∧ L2.status = .Approved) ∨
    (L.status = .Pending ∧ L2.status = .Rejected) ∨
    (L.status = .Approved ∧ L2.status = .Repaid) := by
  have hlen : i < s.loans.length := (List.getElem?_eq_some_iff.mp hL).1
  cases op with
  | requestLoan c now a d p =>
      simp only [step] at h
      cases hr : requestLoan c now a d p s with
      | error e => rw [hr] at h; simp [Except.map] at h
      | ok z =>
          rw [hr] at h
          simp only [Except.map] at h
          cases h
          obtain ⟨-, -, -, -, hz⟩ := requestLoan_ok_inv hr
          subst hz
          dsimp only at hL2
          rw [List.getElem?_append_left hlen, hL] at hL2
          cases hL2
          left; rfl
  | fundLoan c now v j =>
      simp only [step] at h
      cases hr : fundLoan c now v j s with
      | error e => rw [hr] at h; simp [Except.map] at h
      | ok z =>
          rw [hr] at h
          simp only [Except.map] at h
          cases h
          obtain ⟨-, Lp, hLp, hstp, -, -, -, hz⟩ := fundLoan_ok_inv hr
          subst hz
          dsimp only at hL2
          by_cases hij : j = i
          · subst hij
            rw [List.getElem?_set_self hlen] at hL2
            cases hL2
            rw [hL] at hLp
            cases hLp
            right; left
            exact ⟨hstp, rfl⟩
          · rw [List.getElem?_set_ne hij, hL] at hL2
            cases hL2
            left; rfl
  | rejectLoan c j =>
      simp only [step] at h
      cases hr : rejectLoan c j s with
      | error e => rw [hr] at h; simp [Except.map] at h
      | ok z =>
          rw [hr] at h
          simp only [Except.map] at h
          cases h
          obtain ⟨-, Lp, hLp, hstp, hz⟩ := rejectLoan_ok_inv hr
          subst hz
          dsimp only at hL2
          by_cases hij : j = i
          · subst hij
            rw [List.getElem?_set_self hlen] at hL2
            cases hL2
            rw [hL] at hLp
            cases hLp
            right; right; left
            exact ⟨hstp, rfl⟩
          · rw [List.getElem?_set_ne hij, hL] at hL2
            cases hL2
            left; rfl
  | repayLoan c v j =>
      simp only [step] at h
      cases hr : repayLoan c v j s with
      | error e => rw [hr] at h; simp [Except.map] at h
      | ok z =>
          rw [hr] at h
          simp only [Except.map] at h
          cases h
          obtain ⟨-, Lp, hLp, -, hstp, -, -, hz⟩ := repayLoan_ok_inv hr
          subst hz
          dsimp only at hL2
          by_cases hij : j = i
          · subst hij
            rw [List.getElem?_set_self hlen] at hL2
            cases hL2
            rw [hL] at hLp
            cases hLp
            right; right; right
            exact ⟨hstp, rfl⟩
          · rw [List.getElem?_set_ne hij, hL] at hL2
            cases hL2
            left; rfl
  | approveLoan c now j =>
      simp only [step] at h
      obtain ⟨-, -, Lp, hLp, hstp, hz⟩ := approveLoan_ok_inv h
      subst hz
      dsimp only at hL2
      by_cases hij : j = i
      · subst hij
        rw [List.getElem?_set_self hlen] at hL2
        cases hL2
        rw [hL] at hLp
        cases hLp
        right; left
        exact ⟨hstp, rfl⟩
      · rw [List.getElem?_set_ne hij, hL] at hL2
        cases hL2
        left; rfl
  | setFees c l b =>
      simp only [step] at h
      obtain ⟨-, -, -, hz⟩ := setFees_ok_inv h
      subst hz
      dsimp only at hL2
      rw [hL] at hL2
      cases hL2
      left; rfl
  | setTreasury c t =>
      simp only [step] at h
      obtain ⟨-, -, hz⟩ := setTreasury_ok_inv h
      subst hz
      dsimp only at hL2
      rw [hL] at hL2
      cases hL2
      left; rfl
  | pause c =>
      simp only [step] at h
      obtain ⟨-, -, hz⟩ := pause_ok_inv h
      subst hz
      dsimp only at hL2
      rw [hL] at hL2
      cases hL2
      left; rfl
  | unpause c =>
      simp only [step] at h
      obtain ⟨-, -, hz⟩ := unpause_ok_inv h
      subst hz
      dsimp only at hL2
      rw [hL] at hL2
      cases hL2
      left; rfl

/-- C2: a loan's status only ever moves Pending to Approved, Pending to
Rejected, or Approved to Repaid, and Repaid/Rejected are terminal: no
state-changing operation (fundLoan, rejectLoan, repayLoan, approveLoan)
on such a loanId succeeds. -/
theorem status_edges_and_terminal_states :
    (∀ (op : Op) (s s2 : MState), step op s = .ok s2 →
      ∀ (i : Nat) (L L2 : Loan),
        s.loans[i]? = some L → s2.loans[i]? = some L2 →
        (L2.status = L.status ∨
         (L.status = .Pending ∧ L2.status = .Approved) ∨
         (L.status = .Pending ∧ L2.status = .Rejected) ∨
         (L.status = .Approved ∧ L2.status = .Repaid))) ∧
    (∀ (s : MState) (i : Nat) (L : Loan) (caller now v : Nat),
        s.loans[i]? = some L →
        L.status = .Repaid ∨ L.status = .Rejected →
        (fundLoan caller now v i s).isOk = false ∧
        (rejectLoan caller i s).isOk = false ∧
        (repayLoan caller v i s).isOk = false ∧
        (approveLoan caller now i s).isOk = false) := by
  constructor
  · intro op s s2 h i L L2 hL hL2
    exact step_status_move h hL hL2
  · intro s i L caller now v hL hterm
    have hnp : L.status ≠ .Pending := by
      rcases hterm with h1 | h1 <;> simp [h1]
    have hna : L.status ≠ .Approved := by
      rcases hterm with h1 | h1 <;> simp [h1]
    exact ⟨fundLoan_isOk_false_of_not_pending hL hnp,
           rejectLoan_isOk_false_of_not_pending hL hnp,
           repayLoan_isOk_false_of_not_approved hL hna,
           approveLoan_isOk_false_of_not_pending hL hnp⟩

/-- Witness for C2: the funding edge of Scenario B, and terminality of the
rejected loan of Scenario E. -/
theorem status_edges_and_terminal_states_witness :
    ((fundedLoan 3 5 loanB).status = loanB.status ∨
     (loanB.status = .Pending ∧ (fundedLoan 3 5 loanB).status = .Approved) ∨
     (loanB.status = .Pending ∧ (fundedLoan 3 5 loanB).status = .Rejected) ∨
     (loanB.status = .Approved ∧ (fundedLoan 3 5 loanB).status = .Repaid)) ∧
    ((fundLoan 7 9 1010 0 sE).isOk = false ∧
     (rejectLoan 7 0 sE).isOk = false ∧
     (repayLoan 7 1010 0 sE).isOk = false ∧
     (approveLoan 7 9 0 sE).isOk = false) :=
  ⟨status_edges_and_terminal_states.1 (.fundLoan 3 5 1010 0) sB sB2 (by rfl)
     0 loanB (fundedLoan 3 5 loanB) (by rfl) (by rfl),
   status_edges_and_terminal_states.2 sE 0 loanRejB 7 9 1010 (by rfl)
     (Or.inr (by rfl))⟩

/-- C3: a successful repayLoan with valueSent >= principal pays exactly the
principal to the lender, refunds exactly valueSent - principal to the
caller (nothing when valueSent = principal), marks the loan Repaid and
raises the caller's credit score by 10. -/
theorem repayLoan_payout_refund_status_score (caller v loanId : Nat)
    (s : MState) (L : Loan) (out : MState × List (Addr × Nat) × RepayEvent)
    (hL : s.loans[loanId]? = some L)
    (h : repayLoan caller v loanId s = .ok out) :
    L.borrower = caller ∧ L.amount ≤ v ∧
    out.2.1 = (L.lender, L.amount) ::
      (if 0 < v - L.amount then [(caller, v - L.amount)] else []) ∧
    (v = L.amount → out.2.1 = [(L.lender, L.amount)]) ∧
    out.1.loans[loanId]? = some (repaidLoan L) ∧
    (repaidLoan L).status = .Repaid ∧
    out.1.creditScores caller = s.creditScores caller + 10 := by
  have hlen : loanId < s.loans.length := (List.getElem?_eq_some_iff.mp hL).1
  obtain ⟨-, L', hL', hb, -, hle, -, hout⟩ := repayLoan_ok_inv h
  rw [hL] at hL'
  cases hL'
  subst hout
  refine ⟨hb, hle, rfl, ?_, ?_, rfl, ?_⟩
  · intro hv
    subst hv
    simp
  · exact List.getElem?_set_self hlen
  · simp [bumpScore]

/-- Witness for C3 at Scenario D. -/
theorem repayLoan_payout_refund_status_score_witness :
    loanB2.borrower = 2 ∧ loanB2.amount ≤ 1005 ∧
    outD.2.1 = (loanB2.lender, loanB2.amount) ::
      (if 0 < 1005 - loanB2.amount then [(2, 1005 - loanB2.amount)] else []) ∧
    (1005 = loanB2.amount → outD.2.1 = [(loanB2.lender, loanB2.amount)]) ∧
    outD.1.loans[0]? = some (repaidLoan loanB2) ∧
    (repaidLoan loanB2).status = .Repaid ∧
    outD.1.creditScores 2 = sB2.creditScores 2 + 10 :=
  repayLoan_payout_refund_status_score 2 1005 0 sB2 loanB2 outD
    (by rfl) (by rfl)

/-- C5: every state-changing operation is atomic — a failing call changes
no state — and fundLoan with a value different from principal + lenderFee
fails with IncorrectValue, leaving the loan Pending and all state
unchanged. -/
theorem atomic_ops_and_incorrect_value :
    (∀ (op : Op) (s : MState) (e : Err),
        step op s = .error e → exec op s = s) ∧
    (∀ (caller now v loanId : Nat) (s : MState) (L : Loan),
        s.paused = false → s.loans[loanId]? = some L →
        L.status = .Pending → L.amount ≠ 0 →
        v ≠ L.amount + L.amount * s.lenderFeeBps / 10000 →
        step (.fundLoan caller now v loanId) s = .error .incorrectValue ∧
        exec (.fundLoan caller now v loanId) s = s ∧
        (exec (.fundLoan caller now v loanId) s).loans[loanId]? = some L) := by
  constructor
  · intro op s e h
    simp [exec, h]
  · intro caller now v loanId s L hp hL hst ha hv
    have hstep : fundLoan caller now v loanId s = .error .incorrectValue := by
      unfold fundLoan
      simp only [hp, hL, computeFees]
      simp [hst, ha, hv]
    refine ⟨?_, ?_, ?_⟩
    · simp [step, hstep, Except.map]
    · simp [exec, step, hstep, Except.map]
    · simp [exec, step, hstep, Except.map, hL]

/-- Witness for C5 at Scenario C: value 1000 instead of 1010. -/
theorem atomic_ops_and_incorrect_value_witness :
    step (.fundLoan 3 5 1000 0) sB = .error .incorrectValue ∧
    exec (.fundLoan 3 5 1000 0) sB = sB ∧
    (exec (.fundLoan 3 5 1000 0) sB).loans[0]? = some loanB :=
  atomic_ops_and_incorrect_value.2 3 5 1000 0 sB loanB (by rfl) (by rfl)
    (by rfl) (by decide) (by decide)

/-- C8: rejectLoan succeeds for every caller (no authorization check) when
the engine is not paused, the loan exists and is Pending; it sets the
status to Rejected, and a second rejectLoan on the same loanId then fails
with NotPending whoever calls it. -/
theorem rejectLoan_any_caller_then_notPending (caller : Addr) (s : MState)
    (loanId : Nat) (L : Loan) (hp : s.paused = false)
    (hL : s.loans[loanId]? = some L) (hst : L.status = .Pending) :
    rejectLoan caller loanId s =
      .ok ({ s with loans := s.loans.set loanId (rejectedLoan L) },
           { loanId := loanId, borrower := L.borrower }) ∧
    (rejectedLoan L).status = .Rejected ∧
    ∀ caller2 : Addr,
      rejectLoan caller2 loanId
          { s with loans := s.loans.set loanId (rejectedLoan L) } =
        .error .notPending := by
  have hlen : loanId < s.loans.length := (List.getElem?_eq_some_iff.mp hL).1
  refine ⟨?_, rfl, ?_⟩
  · unfold rejectLoan
    simp only [hp, hL]
    simp [hst, rejectedLoan]
  · intro c2
    unfold rejectLoan
    simp [hp, List.getElem?_set_self hlen, rejectedLoan]

/-- Witness for C8 at Scenario E on loan 0 of sB. -/
theorem rejectLoan_any_caller_then_notPending_witness :
    rejectLoan 4 0 sB =
      .ok ({ sB with loans := sB.loans.set 0 (rejectedLoan loanB) },
           { loanId := 0, borrower := loanB.borrower }) ∧
    (rejectedLoan loanB).status = .Rejected ∧
    ∀ caller2 : Addr,
      rejectLoan caller2 0
          { sB with loans := sB.loans.set 0 (rejectedLoan loanB) } =
        .error .notPending :=
  rejectLoan_any_caller_then_notPending 4 sB 0 loanB (by rfl) (by rfl) (by rfl)

/-- C7: the fee computation is a pure total function — for all inputs it
returns the floor formulas and a successful fundLoan records exactly those
fees in its event — while the 1000 bps rate cap is enforced by the
admin-only setFees, which rejects higher rates with FeeTooHigh and accepts
rates up to 1000. -/
theorem computeFees_total_and_cap_in_setFees :
    (∀ p l b : Nat, computeFees p l b = (p * l / 10000, p * b / 10000)) ∧
    (∀ (caller now v loanId : Nat) (s : MState) (L : Loan)
        (out : MState × List (Addr × Nat) × FundEvent),
        s.loans[loanId]? = some L → fundLoan caller now v loanId s = .ok out →
        out.2.2.lenderFee = L.amount * s.lenderFeeBps / 10000 ∧
        out.2.2.borrowerFee = L.amount * s.borrowerFeeBps / 10000) ∧
    (∀ (caller : Addr) (l b : Nat) (s : MState), caller = s.owner →
        1000 < l ∨ 1000 < b → setFees caller l b s = .error .feeTooHigh) ∧
    (∀ (caller : Addr) (l b : Nat) (s : MState), caller = s.owner →
        l ≤ 1000 → b ≤ 1000 →
        setFees caller l b s =
          .ok { s with lenderFeeBps := l, borrowerFeeBps := b }) := by
  refine ⟨fun p l b => rfl, ?_, ?_, ?_⟩
  · intro caller now v loanId s L out hL h
    obtain ⟨-, L', hL', -, -, -, -, hout⟩ := fundLoan_ok_inv h
    rw [hL] at hL'
    cases hL'
    subst hout
    exact ⟨rfl, rfl⟩
  · intro caller l b s hc hcap
    unfold setFees
    simp [hc, hcap]
  · intro caller l b s hc hl hb
    unfold setFees
    simp [hc]
    omega

/-- Witness for C7: fees of Scenario B and setFees calls by the owner. -/
theorem computeFees_total_and_cap_in_setFees_witness :
    computeFees 1000 100 50 = (1000 * 100 / 10000, 1000 * 50 / 10000) ∧
    (outB.2.2.lenderFee = loanB.amount * sB.lenderFeeBps / 10000 ∧
     outB.2.2.borrowerFee = loanB.amount * sB.borrowerFeeBps / 10000) ∧
    setFees 1 2000 50 sA = .error .feeTooHigh ∧
    setFees 1 200 80 sA = .ok { sA with lenderFeeBps := 200, borrowerFeeBps := 80 } :=
  ⟨computeFees_total_and_cap_in_setFees.1 1000 100 50,
   computeFees_total_and_cap_in_setFees.2.1 3 5 1010 0 sB loanB outB
     (by rfl) (by rfl),
   computeFees_total_and_cap_in_setFees.2.2.1 1 2000 50 sA (by rfl)
     (Or.inl (by decide)),
   computeFees_total_and_cap_in_setFees.2.2.2 1 200 80 sA (by rfl)
     (by decide) (by decide)⟩

/-- A completed run of requestLoan calls returns consecutive ids starting
at the current loan count and grows the ledger by one loan per call. -/
theorem runRequests_range {rs : List Req} {s : MState} {ids : List Nat}
    {s2 : MState} (h : runRequests rs s = some (ids, s2)) :
    ids = List.range' s.loans.length rs.length ∧
    s2.loans.length = s.loans.length + rs.length := by
  induction rs generalizing s ids s2 with
  | nil =>
      simp only [runRequests, Option.some.injEq, Prod.mk.injEq] at h
      obtain ⟨h1, h2⟩ := h
      subst h1
      subst h2
      simp [List.range']
  | cons r rest ih =>
      simp only [runRequests] at h
      cases hr : requestLoan r.caller r.now r.amount r.duration r.purpose s with
      | error e => rw [hr] at h; exact absurd h (by simp)
      | ok z =>
          rw [hr] at h
          dsimp only at h
          cases hrest : runRequests rest z.2 with
          | none => rw [hrest] at h; exact absurd h (by simp)
          | some w =>
              obtain ⟨w1, w2⟩ := w
              rw [hrest] at h
              simp only [Option.some.injEq, Prod.mk.injEq] at h
              obtain ⟨h1, h2⟩ := h
              subst h1
              subst h2
              obtain ⟨hr1, hr2⟩ := ih hrest
              obtain ⟨-, -, -, -, hz⟩ := requestLoan_ok_inv hr
              have hz1 : z.1 = s.loans.length := by rw [hz]
              have hz2 : z.2.loans.length = s.loans.length + 1 := by
                rw [hz]; simp
              rw [hz2] at hr1 hr2
              constructor
              · rw [hr1, hz1, List.length_cons, List.range'_succ]
              · simp only [List.length_cons]
                omega

/-- C6: each successful requestLoan returns the current loan count and
appends exactly one loan, and for every sequence of successful
requestLoan calls from the initial state the returned ids are exactly
0, 1, 2, ... in call order, with no id shared. -/
theorem requestLoan_id_density :
    (∀ (c : Addr) (now a d : Nat) (p : String) (s : MState)
        (r : Nat × MState), requestLoan c now a d p s = .ok r →
        r.1 = s.loans.length ∧ r.2.loans.length = s.loans.length + 1) ∧
    (∀ (owner treasury : Addr) (rs : List Req) (ids : List Nat)
        (s2 : MState),
        runRequests rs (initState owner treasury) = some (ids, s2) →
        ids = List.range rs.length ∧ s2.loans.length = rs.length ∧
        ids.Nodup) := by
  constructor
  · intro c now a d p s r h
    obtain ⟨-, -, -, -, hz⟩ := requestLoan_ok_inv h
    constructor
    · rw [hz]
    · rw [hz]; simp
  · intro owner treasury rs ids s2 h
    obtain ⟨h1, h2⟩ := runRequests_range h
    have h0 : (initState owner treasury).loans.length = 0 := rfl
    rw [h0] at h1 h2
    refine ⟨?_, by omega, ?_⟩
    · rw [h1, List.range_eq_range']
    · rw [h1]
      exact List.nodup_range' 0 rs.length

/-- Witness for C6: a concrete first request and the three-request run. -/
theorem requestLoan_id_density_witness :
    (((0 : Nat), sB).1 = sA.loans.length ∧
     ((0 : Nat), sB).2.loans.length = sA.loans.length + 1) ∧
    (([0, 1, 2] : List Nat) = List.range reqsW.length ∧
     sW.loans.length = reqsW.length ∧ ([0, 1, 2] : List Nat).Nodup) :=
  ⟨requestLoan_id_density.1 2 0 1000 30 "seed" sA ((0 : Nat), sB) (by rfl),
   requestLoan_id_density.2 1 9 reqsW [0, 1, 2] sW (by rfl)⟩

/-- A single call never lowers any account's credit score. -/
theorem exec_creditScores_mono (op : Op) (s : MState) (a : Addr) :
    s.creditScores a ≤ (exec op s).creditScores a := by
  cases hstep : step op s with
  | error e => simp [exec, hstep]
  | ok s2 =>
      have hx : exec op s = s2 := by simp [exec, hstep]
      rw [hx]
      cases op with
      | requestLoan c now amt d p =>
          simp only [step] at hstep
          cases hr : requestLoan c now amt d p s with
          | error e => rw [hr] at hstep; simp [Except.map] at hstep
          | ok z =>
              rw [hr] at hstep
              simp only [Except.map] at hstep
              cases hstep
              obtain ⟨-, -, -, -, hz⟩ := requestLoan_ok_inv hr
              rw [hz]
      | fundLoan c now v i =>
          simp only [step] at hstep
          cases hr : fundLoan c now v i s with
          | error e => rw [hr] at hstep; simp [Except.map] at hstep
          | ok z =>
              rw [hr] at hstep
              simp only [Except.map] at hstep
              cases hstep
              obtain ⟨-, L, -, -, -, -, -, hz⟩ := fundLoan_ok_inv hr
              rw [hz]
      | rejectLoan c i =>
          simp only [step] at hstep
          cases hr : rejectLoan c i s with
          | error e => rw [hr] at hstep; simp [Except.map] at hstep
          | ok z =>
              rw [hr] at hstep
              simp only [Except.map] at hstep
              cases hstep
              obtain ⟨-, L, -, -, hz⟩ := rejectLoan_ok_inv hr
              rw [hz]
      | repayLoan c v i =>
          simp only [step] at hstep
          cases hr : repayLoan c v i s with
          | error e => rw [hr] at hstep; simp [Except.map] at hstep
          | ok z =>
              rw [hr] at hstep
              simp only [Except.map] at hstep
              cases hstep
              obtain ⟨-, L, -, -, -, -, -, hz⟩ := repayLoan_ok_inv hr
              rw [hz]
              dsimp only
              simp only [bumpScore]
              split <;> omega
      | approveLoan c now i =>
          simp only [step] at hstep
          obtain ⟨-, -, L, -, -, hz⟩ := approveLoan_ok_inv hstep
          rw [hz]
      | setFees c l b =>
          simp only [step] at hstep
          obtain ⟨-, -, -, hz⟩ := setFees_ok_inv hstep
          rw [hz]
      | setTreasury c t =>
          simp only [step] at hstep
          obtain ⟨-, -, hz⟩ := setTreasury_ok_inv hstep
          rw [hz]
      | pause c =>
          simp only [step] at hstep
          obtain ⟨-, -, hz⟩ := pause_ok_inv hstep
          rw [hz]
      | unpause c =>
          simp only [step] at hstep
          obtain ⟨-, -, hz⟩ := unpause_ok_inv hstep
          rw [hz]

/-- A call that is not a repayLoan by account a leaves a's credit score
unchanged. -/
theorem exec_creditScores_eq_of_not_touching (op : Op) (s : MState)
    (a : Addr) (hnt : ¬ scoreTouching op a) :
    (exec op s).creditScores a = s.creditScores a := by
  cases hstep : step op s with
  | error e => simp [exec, hstep]
  | ok s2 =>
      have hx : exec op s = s2 := by simp [exec, hstep]
      rw [hx]
      cases op with
      | requestLoan c now amt d p =>
          simp only [step] at hstep
          cases hr : requestLoan c now amt d p s with
          | error e => rw [hr] at hstep; simp [Except.map] at hstep
          | ok z =>
              rw [hr] at hstep
              simp only [Except.map] at hstep
              cases hstep
              obtain ⟨-, -, -, -, hz⟩ := requestLoan_ok_inv hr
              rw [hz]
      | fundLoan c now v i =>
          simp only [step] at hstep
          cases hr : fundLoan c now v i s with
          | error e => rw [hr] at hstep; simp [Except.map] at hstep
          | ok z =>
              rw [hr] at hstep
              simp only [Except.map] at hstep
              cases hstep
              obtain ⟨-, L, -, -, -, -, -, hz⟩ := fundLoan_ok_inv hr
              rw [hz]
      | rejectLoan c i =>
          simp only [step] at hstep
          cases hr : rejectLoan c i s with
          | error e => rw [hr] at hstep; simp [Except.map] at hstep
          | ok z =>
              rw [hr] at hstep
              simp only [Except.map] at hstep
              cases hstep
              obtain ⟨-, L, -, -, hz⟩ := rejectLoan_ok_inv hr
              rw [hz]
      | repayLoan c v i =>
          have hca : c ≠ a := fun hq => hnt (by simp [scoreTouching, hq])
          simp only [step] at hstep
          cases hr : repayLoan c v i s with
          | error e => rw [hr] at hstep; simp [Except.map] at hstep
          | ok z =>
              rw [hr] at hstep
              simp only [Except.map] at hstep
              cases hstep
              obtain ⟨-, L, -, -, -, -, -, hz⟩ := repayLoan_ok_inv hr
              rw [hz]
              dsimp only
              simp only [bumpScore]
              rw [if_neg (fun hq => hca hq.symm)]
      | approveLoan c now i =>
          simp only [step] at hstep
          obtain ⟨-, -, L, -, -, hz⟩ := approveLoan_ok_inv hstep
          rw [hz]
      | setFees c l b =>
          simp only [step] at hstep
          obtain ⟨-, -, -, hz⟩ := setFees_ok_inv hstep
          rw [hz]
      | setTreasury c t =>
          simp only [step] at hstep
          obtain ⟨-, -, hz⟩ := setTreasury_ok_inv hstep
          rw [hz]
      | pause c =>
          simp only [step] at hstep
          obtain ⟨-, -, hz⟩ := pause_ok_inv hstep
          rw [hz]
      | unpause c =>
          simp only [step] at hstep
          obtain ⟨-, -, hz⟩ := unpause_ok_inv hstep
          rw [hz]

/-- C9: credit scores never decrease across any operation sequence; the
only call that changes one is a successful repayLoan by the borrower,
which adds exactly 10 to the caller's score. -/
theorem creditScore_monotonic_only_repay_plus10 :
    (∀ (ops : List Op) (s : MState) (a : Addr),
        s.creditScores a ≤ (run ops s).creditScores a) ∧
    (∀ (op : Op) (s : MState) (a : Addr), ¬ scoreTouching op a →
        (exec op s).creditScores a = s.creditScores a) ∧
    (∀ (c : Addr) (v i : Nat) (s : MState)
        (out : MState × List (Addr × Nat) × RepayEvent) (L : Loan),
        repayLoan c v i s = .ok out → s.loans[i]? = some L →
        L.borrower = c ∧ out.1.creditScores c = s.creditScores c + 10) := by
  refine ⟨?_, exec_creditScores_eq_of_not_touching, ?_⟩
  · intro ops s a
    induction ops generalizing s with
    | nil => simp [run]
    | cons op rest ih =>
        simp only [run, List.foldl_cons]
        simp only [run] at ih
        exact le_trans (exec_creditScores_mono op s a) (ih (exec op s))
  · intro c v i s out L h hL
    obtain ⟨-, L', hL', hb, -, -, -, hz⟩ := repayLoan_ok_inv h
    rw [hL] at hL'
    cases hL'
    refine ⟨hb, ?_⟩
    rw [hz]
    dsimp only
    simp [bumpScore]

/-- Witness for C9 on the concrete lifecycle opsW and Scenario D repay. -/
theorem creditScore_monotonic_only_repay_plus10_witness :
    sA.creditScores 2 ≤ (run opsW sA).creditScores 2 ∧
    (exec (.rejectLoan 4 0) sB).creditScores 2 = sB.creditScores 2 ∧
    (loanB2.borrower = 2 ∧ outD.1.creditScores 2 = sB2.creditScores 2 + 10) :=
  ⟨creditScore_monotonic_only_repay_plus10.1 opsW sA 2,
   creditScore_monotonic_only_repay_plus10.2.1 (.rejectLoan 4 0) sB 2
     (by simp [scoreTouching]),
   creditScore_monotonic_only_repay_plus10.2.2 2 1005 0 sB2 outD loanB2
     (by rfl) (by rfl)⟩

/-- The dueDate bound weakens as the time bound grows. -/
theorem dueDates_ok_mono {T n : Nat} (hTn : T ≤ n) {ls : List Loan}
    (hdd : dueDates_ok T ls) : dueDates_ok n ls := by
  intro i L hL
  obtain ⟨h1, h2, h3⟩ := hdd i L hL
  refine ⟨h1, h2, ?_⟩
  calc L.dueDate ≤ T + L.duration * secondsPerDay := h3
    _ ≤ n + L.duration * secondsPerDay := by omega

/-- Appending a fresh loan stamped at time n preserves the dueDate bound. -/
theorem dueDates_ok_append {T n : Nat} (hTn : T ≤ n) {ls : List Loan}
    (hdd : dueDates_ok T ls) {L2 : Loan} (hdur : 0 < L2.duration)
    (hdue : L2.dueDate = n + L2.duration * secondsPerDay) :
    dueDates_ok n (ls ++ [L2]) := by
  intro i L hL
  by_cases hi : i < ls.length
  · rw [List.getElem?_append_left hi] at hL
    exact dueDates_ok_mono hTn hdd i L hL
  · have hlen : i < ls.length + 1 := by
      have := (List.getElem?_eq_some_iff.mp hL).1
      simpa using this
    have hieq : i = ls.length := by omega
    subst hieq
    rw [List.getElem?_concat_length] at hL
    cases hL
    refine ⟨hdur, ?_, by omega⟩
    have : secondsPerDay ≤ L2.duration * secondsPerDay := by
      have := Nat.mul_le_mul_right secondsPerDay hdur
      simpa using this
    have hsp : 0 < secondsPerDay := by decide
    omega

/-- Rewriting one loan with the same duration and a dueDate refreshed to
time n preserves the dueDate bound. -/
theorem dueDates_ok_set_refresh {T n : Nat} (hTn : T ≤ n) {ls : List Loan}
    (hdd : dueDates_ok T ls) {j : Nat} {Lp L2 : Loan}
    (hLp : ls[j]? = some Lp) (hdur : L2.duration = Lp.duration)
    (hdue : L2.dueDate = n + L2.duration * secondsPerDay) :
    dueDates_ok n (ls.set j L2) := by
  intro i L hL
  by_cases hij : j = i
  · subst hij
    have hlen : j < ls.length := (List.getElem?_eq_some_iff.mp hLp).1
    rw [List.getElem?_set_self hlen] at hL
    cases hL
    obtain ⟨h1, -, -⟩ := hdd j Lp hLp
    rw [hdur] at hdue ⊢
    refine ⟨h1, ?_, by omega⟩
    have : secondsPerDay ≤ Lp.duration * secondsPerDay := by
      have := Nat.mul_le_mul_right secondsPerDay h1
      simpa using this
    have hsp : 0 < secondsPerDay := by decide
    omega
  · rw [List.getElem?_set_ne hij] at hL
    exact dueDates_ok_mono hTn hdd i L hL

/-- Rewriting one loan without touching duration or dueDate preserves the
dueDate bound. -/
theorem dueDates_ok_set_keep {T n : Nat} (hTn : T ≤ n) {ls : List Loan}
    (hdd : dueDates_ok T ls) {j : Nat} {Lp L2 : Loan}
    (hLp : ls[j]? = some Lp) (hdur : L2.duration = Lp.duration)
    (hdue : L2.dueDate = Lp.dueDate) :
    dueDates_ok n (ls.set j L2) := by
  intro i L hL
  by_cases hij : j = i
  · subst hij
    have hlen : j < ls.length := (List.getElem?_eq_some_iff.mp hLp).1
    rw [List.getElem?_set_self hlen] at hL
    cases hL
    obtain ⟨h1, h2, h3⟩ := hdd j Lp hLp
    rw [hdur, hdue]
    exact ⟨h1, h2, by omega⟩
  · rw [List.getElem?_set_ne hij] at hL
    exact dueDates_ok_mono hTn hdd i L hL

/-- One call keeps the dueDate bound (at the call's timestamp), never
shrinks the ledger, and never lowers any existing loan's dueDate. -/
theorem exec_dueDates {op : Op} {s : MState} {T n : Nat}
    (hT : (opNow op).getD T = n) (hTn : T ≤ n)
    (hdd : dueDates_ok T s.loans) :
    dueDates_ok n (exec op s).loans ∧
    s.loans.length ≤ (exec op s).loans.length ∧
    (∀ (i : Nat) (L L2 : Loan), s.loans[i]? = some L →
      (exec op s).loans[i]? = some L2 → L.dueDate ≤ L2.dueDate) := by
  cases hstep : step op s with
  | error e =>
      have hx : exec op s = s := by simp [exec, hstep]
      rw [hx]
      refine ⟨dueDates_ok_mono hTn hdd, Nat.le_refl _, ?_⟩
      intro i L L2 h1 h2
      rw [h1] at h2
      cases h2
      exact Nat.le_refl _
  | ok s2 =>
      have hx : exec op s = s2 := by simp [exec, hstep]
      rw [hx]
      cases op with
      | requestLoan c now amt d p =>
          have hn : now = n := by simpa [opNow] using hT
          subst hn
          simp only [step] at hstep
          cases hr : requestLoan c now amt d p s with
          | error e => rw [hr] at hstep; simp [Except.map] at hstep
          | ok z =>
              rw [hr] at hstep
              simp only [Except.map] at hstep
              cases hstep
              obtain ⟨-, -, hd0, -, hz⟩ := requestLoan_ok_inv hr
              rw [hz]
              dsimp only
              refine ⟨dueDates_ok_append hTn hdd
                        (Nat.pos_of_ne_zero hd0) rfl, by simp, ?_⟩
              intro i L L2 h1 h2
              have hlen : i < s.loans.length :=
                (List.getElem?_eq_some_iff.mp h1).1
              rw [List.getElem?_append_left hlen, h1] at h2
              cases h2
              exact Nat.le_refl _
      | fundLoan c now v j =>
          have hn : now = n := by simpa [opNow] using hT
          subst hn
          simp only [step] at hstep
          cases hr : fundLoan c now v j s with
          | error e => rw [hr] at hstep; simp [Except.map] at hstep
          | ok z =>
              rw [hr] at hstep
              simp only [Except.map] at hstep
              cases hstep
              obtain ⟨-, Lp, hLp, -, -, -, -, hz⟩ := fundLoan_ok_inv hr
              rw [hz]
              dsimp only
              refine ⟨dueDates_ok_set_refresh hTn hdd hLp rfl rfl,
                      by simp, ?_⟩
              intro i L L2 h1 h2
              by_cases hij : j = i
              · subst hij
                have hlen : j < s.loans.length :=
                  (List.getElem?_eq_some_iff.mp hLp).1
                rw [List.getElem?_set_self hlen] at h2
                cases h2
                rw [hLp] at h1
                cases h1
                obtain ⟨-, -, h3⟩ := hdd j Lp hLp
                calc Lp.dueDate ≤ T + Lp.duration * secondsPerDay := h3
                  _ ≤ now + Lp.duration * secondsPerDay := by omega
                  _ = (fundedLoan c now Lp).dueDate := rfl
              · rw [List.getElem?_set_ne hij, h1] at h2
                cases h2
                exact Nat.le_refl _
      | rejectLoan c j =>
          have hn : T = n := by simpa [opNow] using hT
          subst hn
          simp only [step] at hstep
          cases hr : rejectLoan c j s with
          | error e => rw [hr] at hstep; simp [Except.map] at hstep
          | ok z =>
              rw [hr] at hstep
              simp only [Except.map] at hstep
              cases hstep
              obtain ⟨-, Lp, hLp, -, hz⟩ := rejectLoan_ok_inv hr
              rw [hz]
              dsimp only
              refine ⟨dueDates_ok_set_keep hTn hdd hLp rfl rfl, by simp, ?_⟩
              intro i L L2 h1 h2
              by_cases hij : j = i
              · subst hij
                have hlen : j < s.loans.length :=
                  (List.getElem?_eq_some_iff.mp hLp).1
                rw [List.getElem?_set_self hlen] at h2
                cases h2
                rw [hLp] at h1
                cases h1
                exact Nat.le_refl _
              · rw [List.getElem?_set_ne hij, h1] at h2
                cases h2
                exact Nat.le_refl _
      | repayLoan c v j =>
          have hn : T = n := by simpa [opNow] using hT
          subst hn
          simp only [step] at hstep
          cases hr : repayLoan c v j s with
          | error e => rw [hr] at hstep; simp [Except.map] at hstep
          | ok z =>
              rw [hr] at hstep
              simp only [Except.map] at hstep
              cases hstep
              obtain ⟨-, Lp, hLp, -, -, -, -, hz⟩ := repayLoan_ok_inv hr
              rw [hz]
              dsimp only
              refine ⟨dueDates_ok_set_keep hTn hdd hLp rfl rfl, by simp, ?_⟩
              intro i L L2 h1 h2
              by_cases hij : j = i
              · subst hij
                have hlen : j < s.loans.length :=
                  (List.getElem?_eq_some_iff.mp hLp).1
                rw [List.getElem?_set_self hlen] at h2
                cases h2
                rw [hLp] at h1
                cases h1
                exact Nat.le_refl _
              · rw [List.getElem?_set_ne hij, h1] at h2
                cases h2
                exact Nat.le_refl _
      | approveLoan c now j =>
          have hn : now = n := by simpa [opNow] using hT
          subst hn
          simp only [step] at hstep
          obtain ⟨-, -, Lp, hLp, -, hz⟩ := approveLoan_ok_inv hstep
          rw [hz]
          dsimp only
          refine ⟨dueDates_ok_set_refresh hTn hdd hLp rfl rfl, by simp, ?_⟩
          intro i L L2 h1 h2
          by_cases hij : j = i
          · subst hij
            have hlen : j < s.loans.length :=
              (List.getElem?_eq_some_iff.mp hLp).1
            rw [List.getElem?_set_self hlen] at h2
            cases h2
            rw [hLp] at h1
            cases h1
            obtain ⟨-, -, h3⟩ := hdd j Lp hLp
            calc Lp.dueDate ≤ T + Lp.duration * secondsPerDay := h3
              _ ≤ now + Lp.duration * secondsPerDay := by omega
              _ = (approvedLoan now Lp).dueDate := rfl
          · rw [List.getElem?_set_ne hij, h1] at h2
            cases h2
            exact Nat.le_refl _
      | setFees c l b =>
          have hn : T = n := by simpa [opNow] using hT
          subst hn
          simp only [step] at hstep
          obtain ⟨-, -, -, hz⟩ := setFees_ok_inv hstep
          rw [hz]
          refine ⟨dueDates_ok_mono hTn hdd, Nat.le_refl _, ?_⟩
          intro i L L2 h1 h2
          rw [h1] at h2
          cases h2
          exact Nat.le_refl _
      | setTreasury c t =>
          have hn : T = n := by simpa [opNow] using hT
          subst hn
          simp only [step] at hstep
          obtain ⟨-, -, hz⟩ := setTreasury_ok_inv hstep
          rw [hz]
          refine ⟨dueDates_ok_mono hTn hdd, Nat.le_refl _, ?_⟩
          intro i L L2 h1 h2
          rw [h1] at h2
          cases h2
          exact Nat.le_refl _
      | pause c =>
          have hn : T = n := by simpa [opNow] using hT
          subst hn
          simp only [step] at hstep
          obtain ⟨-, -, hz⟩ := pause_ok_inv hstep
          rw [hz]
          refine ⟨dueDates_ok_mono hTn hdd, Nat.le_refl _, ?_⟩
          intro i L L2 h1 h2
          rw [h1] at h2
          cases h2
          exact Nat.le_refl _
      | unpause c =>
          have hn : T = n := by simpa [opNow] using hT
          subst hn
          simp only [step] at hstep
          obtain ⟨-, -, hz⟩ := unpause_ok_inv hstep
          rw [hz]
          refine ⟨dueDates_ok_mono hTn hdd, Nat.le_refl _, ?_⟩
          intro i L L2 h1 h2
          rw [h1] at h2
          cases h2
          exact Nat.le_refl _

/-- Along a trace with non-decreasing timestamps, the dueDate bound is
kept, the ledger never shrinks, and no loan's dueDate ever decreases. -/
theorem run_dueDates {ops : List Op} {T : Nat} (h : timesLB T ops)
    {s : MState} (hdd : dueDates_ok T s.loans) :
    T ≤ lastLB T ops ∧
    dueDates_ok (lastLB T ops) (run ops s).loans ∧
    s.loans.length ≤ (run ops s).loans.length ∧
    (∀ (i : Nat) (L L2 : Loan), s.loans[i]? = some L →
      (run ops s).loans[i]? = some L2 → L.dueDate ≤ L2.dueDate) := by
  induction ops generalizing T s with
  | nil =>
      refine ⟨Nat.le_refl _, hdd, Nat.le_refl _, ?_⟩
      intro i L L2 h1 h2
      simp only [run, List.foldl_nil] at h2
      rw [h1] at h2
      cases h2
      exact Nat.le_refl _
  | cons op rest ih =>
      have hsplit : T ≤ (opNow op).getD T ∧ timesLB ((opNow op).getD T) rest := by
        cases hop : opNow op with
        | none =>
            refine ⟨by simp, ?_⟩
            simpa [timesLB, hop] using h
        | some m =>
            have h2 : T ≤ m ∧ timesLB m rest := by
              simpa [timesLB, hop] using h
            simpa using h2
      obtain ⟨hTn, hrest⟩ := hsplit
      obtain ⟨hdA, hdB, hdC⟩ := exec_dueDates rfl hTn hdd
      obtain ⟨ih1, ih2, ih3, ih4⟩ := ih hrest hdA
      refine ⟨le_trans hTn ih1, ih2, le_trans hdB ih3, ?_⟩
      intro i L L2 h1 h2
      have hlen1 : i < (exec op s).loans.length :=
        lt_of_lt_of_le (List.getElem?_eq_some_iff.mp h1).1 hdB
      have hL1 : (exec op s).loans[i]? = some (exec op s).loans[i] :=
        List.getElem?_eq_getElem hlen1
      exact le_trans (hdC i L _ h1 hL1) (ih4 i _ L2 hL1 h2)

/-- A monotone timestamp trace splits at an append. -/
theorem timesLB_append {T : Nat} {l1 l2 : List Op}
    (h : timesLB T (l1 ++ l2)) :
    timesLB T l1 ∧ timesLB (lastLB T l1) l2 := by
  induction l1 generalizing T with
  | nil => exact ⟨trivial, h⟩
  | cons op rest ih =>
      cases hop : opNow op with
      | none =>
          have h2 : timesLB T (rest ++ l2) := by
            simpa [timesLB, hop] using h
          obtain ⟨ha, hb⟩ := ih h2
          constructor
          · simpa [timesLB, hop] using ha
          · simpa [lastLB, hop] using hb
      | some m =>
          have h2 : T ≤ m ∧ timesLB m (rest ++ l2) := by
            simpa [timesLB, hop] using h
          obtain ⟨ha, hb⟩ := ih h2.2
          constructor
          · simp only [timesLB, hop]
            exact ⟨h2.1, ha⟩
          · simpa [lastLB, hop] using hb

/-- C4 counterexample: the very first requestLoan already gives the
Pending loan a non-zero dueDate, so dueDate is not 0 while Pending. -/
theorem dueDate_zero_while_pending_refuted :
    step (.requestLoan 2 0 1000 30 "seed") sA = .ok sB ∧
    sB.loans[0]? = some loanB ∧ loanB.status = .Pending ∧
    loanB.dueDate = 2592000 ∧ ¬ loanB.dueDate = 0 :=
  ⟨rfl, rfl, rfl, rfl, by decide⟩

/-- C4 amended: after every operation every loan's dueDate is non-zero
(set at creation already, while still Pending), and dueDates never
decrease across operations run with non-decreasing block timestamps. -/
theorem dueDate_nonzero_and_nondecreasing :
    (∀ (owner treasury T : Nat) (ops : List Op), timesLB T ops →
       ∀ (i : Nat) (L : Loan),
         (run ops (initState owner treasury)).loans[i]? = some L →
         L.dueDate ≠ 0) ∧
    (∀ (owner treasury T : Nat) (pre post : List Op),
       timesLB T (pre ++ post) →
       ∀ (i : Nat) (L L2 : Loan),
         (run pre (initState owner treasury)).loans[i]? = some L →
         (run (pre ++ post) (initState owner treasury)).loans[i]? = some L2 →
         L.dueDate ≤ L2.dueDate) := by
  have hinit : ∀ (o t : Addr) (T : Nat),
      dueDates_ok T (initState o t).loans := by
    intro o t T i L hL
    simp [initState] at hL
  constructor
  · intro o t T ops h i L hL
    obtain ⟨-, hd2, -, -⟩ := run_dueDates h (hinit o t T)
    obtain ⟨-, h2, -⟩ := hd2 i L hL
    omega
  · intro o t T pre post h i L L2 h1 h2
    obtain ⟨hpre, hpost⟩ := timesLB_append h
    obtain ⟨-, hd2, -, -⟩ := run_dueDates hpre (hinit o t T)
    obtain ⟨-, -, -, hmono⟩ := run_dueDates hpost hd2
    have hrun : run (pre ++ post) (initState o t) =
        run post (run pre (initState o t)) := by
      simp [run, List.foldl_append]
    rw [hrun] at h2
    exact hmono i L L2 h1 h2

/-- Witness for the amended C4 on the concrete lifecycle opsW. -/
theorem dueDate_nonzero_and_nondecreasing_witness :
    (repaidLoan loanB2).dueDate ≠ 0 ∧
    loanB.dueDate ≤ (repaidLoan loanB2).dueDate :=
  ⟨dueDate_nonzero_and_nondecreasing.1 1 9 0 opsW
     (by simp [opsW, timesLB, opNow]) 0 (repaidLoan loanB2) (by rfl),
   dueDate_nonzero_and_nondecreasing.2 1 9 0
     [.requestLoan 2 0 1000 30 "seed"]
     [.fundLoan 3 5 1010 0, .repayLoan 2 1005 0]
     (by simp [timesLB, opNow]) 0 loanB (repaidLoan loanB2)
     (by rfl) (by rfl)⟩

/-- repayLoan cannot succeed on a loan whose lender is unset. -/
theorem repayLoan_isOk_false_of_no_lender {c : Addr} {v i : Nat}
    {s : MState} {L : Loan} (hL : s.loans[i]? = some L)
    (hl : L.lender = 0) : (repayLoan c v i s).isOk = false := by
  unfold repayLoan
  split
  · rfl
  · simp only [hL]
    split_ifs <;> first | rfl | simp_all

/-- repayLoan by the borrower with enough value fails with NoLender when
the lender is unset. -/
theorem repayLoan_noLender {c : Addr} {v i : Nat} {s : MState} {L : Loan}
    (hp : s.paused = false) (hL : s.loans[i]? = some L)
    (hb : L.borrower = c) (hst : L.status = .Approved)
    (hv : L.amount ≤ v) (hl : L.lender = 0) :
    repayLoan c v i s = .error .noLender := by
  unfold repayLoan
  simp only [hp, hL]
  simp [hb, hst, hl, Nat.not_lt.mpr hv]

/-- A loan that is Approved with no lender is untouched by every call. -/
theorem exec_preserves_stuck {s : MState} {i : Nat} {L : Loan}
    (hL : s.loans[i]? = some L) (hst : L.status = .Approved)
    (hl : L.lender = 0) (op : Op) :
    (exec op s).loans[i]? = some L := by
  have hlen : i < s.loans.length := (List.getElem?_eq_some_iff.mp hL).1
  cases hstep : step op s with
  | error e => simp [exec, hstep, hL]
  | ok s2 =>
      have hx : exec op s = s2 := by simp [exec, hstep]
      rw [hx]
      cases op with
      | requestLoan c now amt d p =>
          simp only [step] at hstep
          cases hr : requestLoan c now amt d p s with
          | error e => rw [hr] at hstep; simp [Except.map] at hstep
          | ok z =>
              rw [hr] at hstep
              simp only [Except.map] at hstep
              cases hstep
              obtain ⟨-, -, -, -, hz⟩ := requestLoan_ok_inv hr
              rw [hz]
              dsimp only
              rw [List.getElem?_append_left hlen]
              exact hL
      | fundLoan c now v j =>
          simp only [step] at hstep
          cases hr : fundLoan c now v j s with
          | error e => rw [hr] at hstep; simp [Except.map] at hstep
          | ok z =>
              rw [hr] at hstep
              simp only [Except.map] at hstep
              cases hstep
              obtain ⟨-, Lp, hLp, hstp, -, -, -, hz⟩ := fundLoan_ok_inv hr
              rw [hz]
              dsimp only
              have hij : j ≠ i := by
                intro hq
                subst hq
                rw [hL] at hLp
                cases hLp
                rw [hst] at hstp
                cases hstp
              rw [List.getElem?_set_ne hij]
              exact hL
      | rejectLoan c j =>
          simp only [step] at hstep
          cases hr : rejectLoan c j s with
          | error e => rw [hr] at hstep; simp [Except.map] at hstep
          | ok z =>
              rw [hr] at hstep
              simp only [Except.map] at hstep
              cases hstep
              obtain ⟨-, Lp, hLp, hstp, hz⟩ := rejectLoan_ok_inv hr
              rw [hz]
              dsimp only
              have hij : j ≠ i := by
                intro hq
                subst hq
                rw [hL] at hLp
                cases hLp
                rw [hst] at hstp
                cases hstp
              rw [List.getElem?_set_ne hij]
              exact hL
      | repayLoan c v j =>
          simp only [step] at hstep
          cases hr : repayLoan c v j s with
          | error e => rw [hr] at hstep; simp [Except.map] at hstep
          | ok z =>
              rw [hr] at hstep
              simp only [Except.map] at hstep
              cases hstep
              obtain ⟨-, Lp, hLp, -, -, -, hlp, hz⟩ := repayLoan_ok_inv hr
              rw [hz]
              dsimp only
              have hij : j ≠ i := by
                intro hq
                subst hq
                rw [hL] at hLp
                cases hLp
                exact hlp hl
              rw [List.getElem?_set_ne hij]
              exact hL
      | approveLoan c now j =>
          simp only [step] at hstep
          obtain ⟨-, -, Lp, hLp, hstp, hz⟩ := approveLoan_ok_inv hstep
          rw [hz]
          dsimp only
          have hij : j ≠ i := by
            intro hq
            subst hq
            rw [hL] at hLp
            cases hLp
            rw [hst] at hstp
            cases hstp
          rw [List.getElem?_set_ne hij]
          exact hL
      | setFees c l b =>
          simp only [step] at hstep
          obtain ⟨-, -, -, hz⟩ := setFees_ok_inv hstep
          rw [hz]
          exact hL
      | setTreasury c t =>
          simp only [step] at hstep
          obtain ⟨-, -, hz⟩ := setTreasury_ok_inv hstep
          rw [hz]
          exact hL
      | pause c =>
          simp only [step] at hstep
          obtain ⟨-, -, hz⟩ := pause_ok_inv hstep
          rw [hz]
          exact hL
      | unpause c =>
          simp only [step] at hstep
          obtain ⟨-, -, hz⟩ := unpause_ok_inv hstep
          rw [hz]
          exact hL

/-- A loan that is Approved with no lender stays exactly as it is under
every sequence of calls. -/
theorem run_preserves_stuck {i : Nat} {L : Loan} (hst : L.status = .Approved)
    (hl : L.lender = 0) (ops : List Op) :
    ∀ {s : MState}, s.loans[i]? = some L →
      (run ops s).loans[i]? = some L := by
  induction ops with
  | nil => intro s hL; simpa [run] using hL
  | cons op rest ih =>
      intro s hL
      exact ih (exec_preserves_stuck hL hst hl op)

/-- C10: the deprecated approveLoan marks a Pending loan Approved without
setting a lender; such a loan is permanently stuck: it survives every
subsequent call unchanged, every repayLoan on it fails — with NoLender
when the borrower calls with enough value while unpaused — and
fundLoan, rejectLoan and approveLoan on it fail as it is no longer
Pending, so the borrower can never reach Repaid. -/
theorem approveLoan_stuck_no_lender :
    (∀ (c : Addr) (now i : Nat) (s s2 : MState) (L : Loan),
        step (.approveLoan c now i) s = .ok s2 → s.loans[i]? = some L →
        s2.loans[i]? = some (approvedLoan now L) ∧
        (approvedLoan now L).status = .Approved ∧
        (approvedLoan now L).lender = L.lender) ∧
    (∀ (s : MState) (i : Nat) (L : Loan) (ops : List Op),
        s.loans[i]? = some L → L.status = .Approved → L.lender = 0 →
        (run ops s).loans[i]? = some L ∧
        ∀ (c : Addr) (now v : Nat),
          (repayLoan c v i (run ops s)).isOk = false ∧
          (fundLoan c now v i (run ops s)).isOk = false ∧
          (rejectLoan c i (run ops s)).isOk = false ∧
          (approveLoan c now i (run ops s)).isOk = false) ∧
    (∀ (s : MState) (i : Nat) (L : Loan) (c : Addr) (v : Nat),
        s.paused = false → s.loans[i]? = some L → L.status = .Approved →
        L.lender = 0 → L.borrower = c → L.amount ≤ v →
        repayLoan c v i s = .error .noLender) := by
  refine ⟨?_, ?_, ?_⟩
  · intro c now i s s2 L h hL
    simp only [step] at h
    obtain ⟨-, -, Lp, hLp, -, hz⟩ := approveLoan_ok_inv h
    rw [hL] at hLp
    cases hLp
    subst hz
    have hlen : i < s.loans.length := (List.getElem?_eq_some_iff.mp hL).1
    refine ⟨?_, rfl, rfl⟩
    dsimp only
    exact List.getElem?_set_self hlen
  · intro s i L ops hL hst hl
    have hrun := run_preserves_stuck hst hl ops hL
    refine ⟨hrun, ?_⟩
    intro c now v
    have hnp : L.status ≠ .Pending := by simp [hst]
    exact ⟨repayLoan_isOk_false_of_no_lender hrun hl,
           fundLoan_isOk_false_of_not_pending hrun hnp,
           rejectLoan_isOk_false_of_not_pending hrun hnp,
           approveLoan_isOk_false_of_not_pending hrun hnp⟩
  · intro s i L c v hp hL hst hl hb hv
    exact repayLoan_noLender hp hL hb hst hv hl

/-- Witness for C10: approveLoan on loan 0 of sB, then a later state. -/
theorem approveLoan_stuck_no_lender_witness :
    (sApp.loans[0]? = some (approvedLoan 7 loanB) ∧
     (approvedLoan 7 loanB).status = .Approved ∧
     (approvedLoan 7 loanB).lender = loanB.lender) ∧
    ((run [.rejectLoan 4 0] sApp).loans[0]? = some loanApp ∧
     ((repayLoan 2 1010 0 (run [.rejectLoan 4 0] sApp)).isOk = false ∧
      (fundLoan 2 8 1010 0 (run [.rejectLoan 4 0] sApp)).isOk = false ∧
      (rejectLoan 2 0 (run [.rejectLoan 4 0] sApp)).isOk = false ∧
      (approveLoan 2 8 0 (run [.rejectLoan 4 0] sApp)).isOk = false)) ∧
    repayLoan 2 1000 0 sApp = .error .noLender :=
  ⟨approveLoan_stuck_no_lender.1 1 7 0 sB sApp loanB (by rfl) (by rfl),
   (fun h => ⟨h.1, h.2 2 8 1010⟩)
     (approveLoan_stuck_no_lender.2.1 sApp 0 loanApp [.rejectLoan 4 0]
       (by rfl) (by rfl) (by rfl)),
   approveLoan_stuck_no_lender.2.2 sApp 0 loanApp 2 1000 (by rfl) (by rfl)
     (by rfl) (by rfl) (by rfl) (by decide)⟩
